import Mathlib

/-!
Verification development for the Tour de SOL winner tool
(src/winner-tool/src/main.rs and its companion modules).

The tool replays a ledger, accumulates per-entry vote-confirmation state
(VoterRecord / SlotVoterSegments) through a callback, and then computes three
leaderboard reports: rewards earned, availability, and confirmation latency.

Only `main.rs` is present in the repository sources; the module bodies
(`rewards_earned`, `availability`, `confirmation_latency`, `winner`, `utils`)
are declared there but their files are missing, so those components are
modelled from the specification (each such definition's doc comment says so).
`excluded_set` is embedded directly from `main.rs`.
-/

namespace WinnerTool

/-- A validator identity (Solana `Pubkey`, a fixed-size byte array compared by
byte value).  Modelled as a natural number; the lexicographic byte-value order
of the source corresponds to the linear order on `Nat`. -/
abbrev Pubkey := Nat

/-- A ledger slot number (`u64` in the source). -/
abbrev Slot := Nat

/-- Modelled from the spec (module `winner` is absent from src): a
`WinnerReport` is an ordered sequence of (identity, metric value) pairs,
highest-ranked first. -/
abbrev WinnerReport (α : Type) := List (Pubkey × α)

/-- Ranking relation for reports ordered by metric descending, ties broken by
identity byte value ascending. -/
def beats_desc {α : Type} [LinearOrder α] (a b : Pubkey × α) : Prop :=
  b.2 < a.2 ∨ (a.2 = b.2 ∧ a.1 ≤ b.1)

/-- Ranking relation for reports ordered by metric ascending, ties broken by
identity byte value ascending. -/
def beats_asc {α : Type} [LinearOrder α] (a b : Pubkey × α) : Prop :=
  a.2 < b.2 ∨ (a.2 = b.2 ∧ a.1 ≤ b.1)

instance beats_desc_decidable {α : Type} [LinearOrder α] :
    DecidableRel (@beats_desc α _) := fun a b =>
  decidable_of_iff (b.2 < a.2 ∨ (a.2 = b.2 ∧ a.1 ≤ b.1)) Iff.rfl

instance beats_asc_decidable {α : Type} [LinearOrder α] :
    DecidableRel (@beats_asc α _) := fun a b =>
  decidable_of_iff (a.2 < b.2 ∨ (a.2 = b.2 ∧ a.1 ≤ b.1)) Iff.rfl

instance beats_desc_total {α : Type} [LinearOrder α] :
    IsTotal (Pubkey × α) beats_desc where
  total a b := by
    rcases lt_trichotomy a.2 b.2 with h | h | h
    · exact Or.inr (Or.inl h)
    · rcases le_total a.1 b.1 with hle | hle
      · exact Or.inl (Or.inr ⟨h, hle⟩)
      · exact Or.inr (Or.inr ⟨h.symm, hle⟩)
    · exact Or.inl (Or.inl h)

instance beats_asc_total {α : Type} [LinearOrder α] :
    IsTotal (Pubkey × α) beats_asc where
  total a b := by
    rcases lt_trichotomy a.2 b.2 with h | h | h
    · exact Or.inl (Or.inl h)
    · rcases le_total a.1 b.1 with hle | hle
      · exact Or.inl (Or.inr ⟨h, hle⟩)
      · exact Or.inr (Or.inr ⟨h.symm, hle⟩)
    · exact Or.inr (Or.inl h)

instance beats_desc_trans {α : Type} [LinearOrder α] :
    IsTrans (Pubkey × α) beats_desc where
  trans a b c hab hbc := by
    rcases hab with hab | ⟨hab, hab1⟩
    · rcases hbc with hbc | ⟨hbc, _⟩
      · exact Or.inl (lt_trans hbc hab)
      · exact Or.inl (hbc ▸ hab)
    · rcases hbc with hbc | ⟨hbc, hbc1⟩
      · exact Or.inl (hab ▸ hbc)
      · exact Or.inr ⟨hab.trans hbc, le_trans hab1 hbc1⟩

instance beats_asc_trans {α : Type} [LinearOrder α] :
    IsTrans (Pubkey × α) beats_asc where
  trans a b c hab hbc := by
    rcases hab with hab | ⟨hab, hab1⟩
    · rcases hbc with hbc | ⟨hbc, _⟩
      · exact Or.inl (lt_trans hab hbc)
      · exact Or.inl (hbc ▸ hab)
    · rcases hbc with hbc | ⟨hbc, hbc1⟩
      · exact Or.inl (hab ▸ hbc)
      · exact Or.inr ⟨hab.trans hbc, le_trans hab1 hbc1⟩

instance beats_desc_antisymm {α : Type} [LinearOrder α] :
    IsAntisymm (Pubkey × α) beats_desc where
  antisymm a b hab hba := by
    rcases hab with hab | ⟨hab, hab1⟩
    · rcases hba with hba | ⟨hba, _⟩
      · exact absurd hba (lt_asymm hab)
      · exact absurd hab (hba ▸ lt_irrefl _)
    · rcases hba with hba | ⟨hba, hba1⟩
      · exact absurd hba (hab ▸ lt_irrefl _)
      · exact Prod.ext (le_antisymm hab1 hba1) hab

instance beats_asc_antisymm {α : Type} [LinearOrder α] :
    IsAntisymm (Pubkey × α) beats_asc where
  antisymm a b hab hba := by
    rcases hab with hab | ⟨hab, hab1⟩
    · rcases hba with hba | ⟨hba, _⟩
      · exact absurd hba (lt_asymm hab)
      · exact absurd hab (hba ▸ lt_irrefl _)
    · rcases hba with hba | ⟨hba, hba1⟩
      · exact absurd hba (hab ▸ lt_irrefl _)
      · exact Prod.ext (le_antisymm hab1 hba1) hab

/-- Modelled from the spec: produce a report sorted by metric descending with
the deterministic identity tie-break (used by the rewards and availability
calculators). -/
def rank_desc {α : Type} [LinearOrder α] (l : List (Pubkey × α)) : WinnerReport α :=
  l.insertionSort beats_desc

/-- Modelled from the spec: produce a report sorted by metric ascending with
the deterministic identity tie-break (used by the latency calculator). -/
def rank_asc {α : Type} [LinearOrder α] (l : List (Pubkey × α)) : WinnerReport α :=
  l.insertionSort beats_asc

theorem sorted_rank_desc {α : Type} [LinearOrder α] (l : List (Pubkey × α)) :
    List.Sorted beats_desc (rank_desc l) :=
  List.sorted_insertionSort beats_desc l

theorem sorted_rank_asc {α : Type} [LinearOrder α] (l : List (Pubkey × α)) :
    List.Sorted beats_asc (rank_asc l) :=
  List.sorted_insertionSort beats_asc l

theorem rank_desc_perm {α : Type} [LinearOrder α] (l : List (Pubkey × α)) :
    List.Perm (rank_desc l) l :=
  List.perm_insertionSort beats_desc l

theorem rank_asc_perm {α : Type} [LinearOrder α] (l : List (Pubkey × α)) :
    List.Perm (rank_asc l) l :=
  List.perm_insertionSort beats_asc l

theorem rank_desc_eq_of_perm {α : Type} [LinearOrder α] {l₁ l₂ : List (Pubkey × α)}
    (h : List.Perm l₁ l₂) : rank_desc l₁ = rank_desc l₂ :=
  List.eq_of_perm_of_sorted ((rank_desc_perm l₁).trans (h.trans (rank_desc_perm l₂).symm))
    (sorted_rank_desc l₁) (sorted_rank_desc l₂)

theorem rank_asc_eq_of_perm {α : Type} [LinearOrder α] {l₁ l₂ : List (Pubkey × α)}
    (h : List.Perm l₁ l₂) : rank_asc l₁ = rank_asc l₂ :=
  List.eq_of_perm_of_sorted ((rank_asc_perm l₁).trans (h.trans (rank_asc_perm l₂).symm))
    (sorted_rank_asc l₁) (sorted_rank_asc l₂)

/-- Embedded from `main.rs` lines 139-144: the set of identities excluded from
every ranking, built by inserting the baseline validator identity and the
bootstrap leader identity into a fresh hash set. -/
def excluded_set (baseline_id bootstrap_id : Pubkey) : Finset Pubkey :=
  insert bootstrap_id (insert baseline_id (∅ : Finset Pubkey))

/-- Modelled from the spec: the final account-state snapshot produced by the
replay engine (`Bank` in the source, external).  It supplies the candidate
pool (identities with vote accounts) and the final balance of every account,
in lamports. -/
structure AccountSnapshot where
  vote_account_ids : List Pubkey
  balances : List (Pubkey × Nat)

namespace rewards_earned

/-- Modelled from the spec (module `rewards_earned` is absent from src): the
final balance of an identity; an identity absent from the snapshot is treated
as still holding the starting balance. -/
def final_balance (balances : List (Pubkey × Nat)) (starting_balance : Nat)
    (id : Pubkey) : Nat :=
  match balances.lookup id with
  | some b => b
  | none => starting_balance

/-- Modelled from the spec: signed net earnings,
`net = final_balance - starting_balance` (may be negative). -/
def net (balances : List (Pubkey × Nat)) (starting_balance : Nat) (id : Pubkey) : Int :=
  (final_balance balances starting_balance id : Int) - (starting_balance : Int)

/-- Modelled from the spec (module `rewards_earned` is absent from src):
rank every non-excluded identity of the snapshot by net earnings, descending,
ties broken by identity byte value ascending. -/
def compute_winners (snapshot : AccountSnapshot) (excluded : Finset Pubkey)
    (starting_balance : Nat) : WinnerReport Int :=
  rank_desc
    ((snapshot.vote_account_ids.filter (fun id => decide (id ∉ excluded))).map
      (fun id => (id, net snapshot.balances starting_balance id)))

end rewards_earned

namespace availability

/-- Modelled from the spec: the slots the leader-assignment schedule assigns
to a given identity. -/
def assigned_slots (schedule : List (Slot × Pubkey)) (id : Pubkey) : List Slot :=
  (schedule.filter (fun p => decide (p.2 = id))).map (fun p => p.1)

/-- Modelled from the spec: how many of the given assigned slots were actually
produced according to the block store. -/
def produced_count (slots : List Slot) (produced : List Slot) : Nat :=
  (slots.filter (fun s => decide (s ∈ produced))).length

/-- Modelled from the spec: fraction of an identity's assigned slots that were
successfully produced. -/
def fraction (schedule : List (Slot × Pubkey)) (produced : List Slot)
    (id : Pubkey) : Rat :=
  let a := assigned_slots schedule id
  (produced_count a produced : Rat) / (a.length : Rat)

/-- Modelled from the spec (module `availability` is absent from src): rank
every non-excluded identity of the snapshot by its produced fraction
normalized against the baseline validator's fraction, descending, ties broken
by identity byte value ascending.  An identity assigned zero slots has
undefined availability and is omitted. -/
def compute_winners (snapshot : AccountSnapshot) (produced : List Slot)
    (baseline_id : Pubkey) (excluded : Finset Pubkey)
    (schedule : List (Slot × Pubkey)) : WinnerReport Rat :=
  let base := fraction schedule produced baseline_id
  rank_desc
    ((snapshot.vote_account_ids.filter (fun id => decide (id ∉ excluded))).filterMap
      (fun id =>
        if assigned_slots schedule id = [] then none
        else some (id, fraction schedule produced id / base)))

end availability

namespace confirmation_latency

/-- One vote observation: at entry index `observed_at_entry_index` of the
replay stream, `identity`'s vote landed such that it confirms
`slot_confirmed`. -/
structure VoteRecordEntry where
  identity : Pubkey
  slot_confirmed : Slot
  observed_at_entry_index : Nat
deriving Repr, DecidableEq

/-- Modelled from the spec: the per-identity vote history.  The source keeps a
map from identity to its ordered sequence of `VoteRecordEntry`; here the
record is the flat observation-ordered list, and the per-identity sequence is
recovered by `entries_for` (the two views are equivalent). -/
abbrev VoterRecord := List VoteRecordEntry

/-- Modelled from the spec: the per-slot confirmation ledger, a map from slot
to the ordered `(identity, entry_index)` confirmations of that slot; stored
flat as `(slot, identity, entry_index)` triples in observation order. -/
abbrev SlotVoterSegments := List (Slot × Pubkey × Nat)

/-- The ordered sequence of recorded observations of one identity. -/
def entries_for (voter_record : VoterRecord) (id : Pubkey) : List VoteRecordEntry :=
  voter_record.filter (fun e => decide (e.identity = id))

/-- The most recently recorded confirmed slot of an identity, the
de-duplication key of `on_entry`. -/
def last_confirmed (voter_record : VoterRecord) (id : Pubkey) : Option Slot :=
  (entries_for voter_record id).getLast?.map (fun e => e.slot_confirmed)

/-- Modelled from the spec (module `confirmation_latency` is absent from src):
the per-entry callback.  `vote_accounts` is the snapshot's vote-accounts view,
pairing each identity with its most-recently-confirmed slot (none when it has
confirmed nothing yet).  For each identity whose confirmed slot differs from
the one already recorded, append a `VoteRecordEntry` to the voter record and
an `(identity, entry_index)` pair to the newly confirmed slot's segment. -/
def on_entry (entry_index : Nat) (current_slot : Slot)
    (vote_accounts : List (Pubkey × Option Slot))
    (voter_record : VoterRecord) (slot_voter_segments : SlotVoterSegments) :
    VoterRecord × SlotVoterSegments :=
  vote_accounts.foldl
    (fun st va =>
      match va.2 with
      | none => st
      | some s =>
        if last_confirmed st.1 va.1 = some s then st
        else (st.1 ++ [⟨va.1, s, entry_index⟩], st.2 ++ [(s, va.1, entry_index)]))
    (voter_record, slot_voter_segments)

/-- Modelled from the spec: the entry index at which the baseline validator
confirmed a slot, looked up in that slot's segment. -/
def baseline_index (slot_voter_segments : SlotVoterSegments) (baseline_id : Pubkey)
    (s : Slot) : Option Nat :=
  (slot_voter_segments.find? (fun e => decide (e.1 = s) && decide (e.2.1 = baseline_id))).map
    (fun e => e.2.2)

/-- Modelled from the spec: an identity's entry-index offsets from the
baseline validator, over all slots both confirmed. -/
def offsets_from_baseline (voter_record : VoterRecord)
    (slot_voter_segments : SlotVoterSegments) (baseline_id : Pubkey)
    (id : Pubkey) : List Int :=
  (entries_for voter_record id).filterMap
    (fun e =>
      (baseline_index slot_voter_segments baseline_id e.slot_confirmed).map
        (fun b => (e.observed_at_entry_index : Int) - (b : Int)))

/-- Modelled from the spec: the single deterministic reduction aggregating an
identity's per-slot offsets into one number — the mean offset. -/
def mean_offset (offs : List Int) : Rat :=
  (offs.sum : Rat) / (offs.length : Rat)

/-- Modelled from the spec (module `confirmation_latency` is absent from src):
rank every non-excluded identity appearing in the voter record by its mean
entry-index offset from the baseline validator, ascending, ties broken by
identity byte value ascending.  An identity sharing no confirmed slot with
the baseline has no defined score and is omitted. -/
def compute_winners (baseline_id : Pubkey) (excluded : Finset Pubkey)
    (voter_record : VoterRecord) (slot_voter_segments : SlotVoterSegments) :
    WinnerReport Rat :=
  rank_asc
    ((((voter_record.map (fun e => e.identity)).dedup).filter
        (fun id => decide (id ∉ excluded))).filterMap
      (fun id =>
        let offs := offsets_from_baseline voter_record slot_voter_segments baseline_id id
        if offs = [] then none
        else some (id, mean_offset offs)))

end confirmation_latency

open confirmation_latency in
/-- Modelled from the spec: the read phase that runs after replay completes.
The spec states the calculators perform no further mutation of the shared
containers, so each calculator is a pure function and the phase hands the
containers back unchanged alongside the three reports. -/
def run_read_phase (snapshot : AccountSnapshot) (produced : List Slot)
    (schedule : List (Slot × Pubkey)) (baseline_id : Pubkey)
    (excluded : Finset Pubkey) (starting_balance : Nat)
    (voter_record : VoterRecord) (slot_voter_segments : SlotVoterSegments) :
    (WinnerReport Int × WinnerReport Rat × WinnerReport Rat) ×
      VoterRecord × SlotVoterSegments :=
  ((rewards_earned.compute_winners snapshot excluded starting_balance,
    availability.compute_winners snapshot produced baseline_id excluded schedule,
    confirmation_latency.compute_winners baseline_id excluded voter_record
      slot_voter_segments),
    voter_record, slot_voter_segments)

theorem mem_rewards_report {snapshot : AccountSnapshot} {excluded : Finset Pubkey}
    {starting_balance : Nat} {x : Pubkey × Int}
    (hx : x ∈ rewards_earned.compute_winners snapshot excluded starting_balance) :
    x.1 ∈ snapshot.vote_account_ids ∧ x.1 ∉ excluded ∧
      x.2 = rewards_earned.net snapshot.balances starting_balance x.1 := by
  have hx' := (rank_desc_perm _).mem_iff.mp hx
  rcases List.mem_map.mp hx' with ⟨a, ha, hax⟩
  rcases List.mem_filter.mp ha with ⟨hmem, hdec⟩
  cases hax
  exact ⟨hmem, of_decide_eq_true hdec, rfl⟩

theorem mem_availability_report {snapshot : AccountSnapshot} {produced : List Slot}
    {baseline_id : Pubkey} {excluded : Finset Pubkey} {schedule : List (Slot × Pubkey)}
    {x : Pubkey × Rat}
    (hx : x ∈ availability.compute_winners snapshot produced baseline_id excluded schedule) :
    x.1 ∈ snapshot.vote_account_ids ∧ x.1 ∉ excluded ∧
      availability.assigned_slots schedule x.1 ≠ [] := by
  have hx' := (rank_desc_perm _).mem_iff.mp hx
  rcases List.mem_filterMap.mp hx' with ⟨a, ha, hax⟩
  rcases List.mem_filter.mp ha with ⟨hmem, hdec⟩
  by_cases hempty : availability.assigned_slots schedule a = []
  · rw [if_pos hempty] at hax
    exact absurd hax (by simp)
  · rw [if_neg hempty] at hax
    cases hax
    exact ⟨hmem, of_decide_eq_true hdec, hempty⟩

theorem mem_latency_report {baseline_id : Pubkey} {excluded : Finset Pubkey}
    {voter_record : confirmation_latency.VoterRecord}
    {slot_voter_segments : confirmation_latency.SlotVoterSegments} {x : Pubkey × Rat}
    (hx : x ∈ confirmation_latency.compute_winners baseline_id excluded voter_record
      slot_voter_segments) :
    x.1 ∈ (voter_record.map (fun e => e.identity)).dedup ∧ x.1 ∉ excluded ∧
      confirmation_latency.offsets_from_baseline voter_record slot_voter_segments
        baseline_id x.1 ≠ [] := by
  have hx' := (rank_asc_perm _).mem_iff.mp hx
  rcases List.mem_filterMap.mp hx' with ⟨a, ha, hax⟩
  rcases List.mem_filter.mp ha with ⟨hmem, hdec⟩
  simp only at hax
  by_cases hempty : confirmation_latency.offsets_from_baseline voter_record
      slot_voter_segments baseline_id a = []
  · rw [if_pos hempty] at hax
    exact absurd hax (by simp)
  · rw [if_neg hempty] at hax
    cases hax
    exact ⟨hmem, of_decide_eq_true hdec, hempty⟩

/-- Claim C1: no identity of the excluded set (built from the baseline
validator identity and the bootstrap leader identity) ever appears in the
output sequence of any of the three reports. -/
theorem C1_exclusion_invariant (snapshot : AccountSnapshot) (produced : List Slot)
    (schedule : List (Slot × Pubkey)) (baseline_id bootstrap_id : Pubkey)
    (starting_balance : Nat) (voter_record : confirmation_latency.VoterRecord)
    (slot_voter_segments : confirmation_latency.SlotVoterSegments) (id : Pubkey)
    (hid : id ∈ excluded_set baseline_id bootstrap_id) :
    id ∉ (rewards_earned.compute_winners snapshot (excluded_set baseline_id bootstrap_id)
        starting_balance).map Prod.fst ∧
    id ∉ (availability.compute_winners snapshot produced baseline_id
        (excluded_set baseline_id bootstrap_id) schedule).map Prod.fst ∧
    id ∉ (confirmation_latency.compute_winners baseline_id
        (excluded_set baseline_id bootstrap_id) voter_record
        slot_voter_segments).map Prod.fst := by
  refine ⟨fun hmem => ?_, fun hmem => ?_, fun hmem => ?_⟩
  · rcases List.mem_map.mp hmem with ⟨x, hx, hx1⟩
    exact (mem_rewards_report hx).2.1 (hx1 ▸ hid)
  · rcases List.mem_map.mp hmem with ⟨x, hx, hx1⟩
    exact (mem_availability_report hx).2.1 (hx1 ▸ hid)
  · rcases List.mem_map.mp hmem with ⟨x, hx, hx1⟩
    exact (mem_latency_report hx).2.1 (hx1 ▸ hid)

/-- Witness for C1 at a concrete input: identity 5 is excluded (it is the
baseline) and indeed appears in none of the three reports. -/
theorem C1_exclusion_invariant_witness :
    (5 : Pubkey) ∈ excluded_set 5 7 ∧
    ((5 : Pubkey) ∉ (rewards_earned.compute_winners ⟨[5, 9], [(5, 1500), (9, 900)]⟩
        (excluded_set 5 7) 1000).map Prod.fst ∧
     (5 : Pubkey) ∉ (availability.compute_winners ⟨[5, 9], [(5, 1500), (9, 900)]⟩
        [1, 2] 5 (excluded_set 5 7) [(1, 5), (2, 9)]).map Prod.fst ∧
     (5 : Pubkey) ∉ (confirmation_latency.compute_winners 5 (excluded_set 5 7)
        [⟨5, 1, 3⟩, ⟨9, 1, 4⟩] [(1, 5, 3), (1, 9, 4)]).map Prod.fst) :=
  ⟨by decide,
   C1_exclusion_invariant ⟨[5, 9], [(5, 1500), (9, 900)]⟩ [1, 2] [(1, 5), (2, 9)] 5 7
     1000 [⟨5, 1, 3⟩, ⟨9, 1, 4⟩] [(1, 5, 3), (1, 9, 4)] 5 (by decide)⟩

/-- Claim C10: building the excluded set from the baseline validator identity
and the bootstrap leader identity never fails and has set semantics: both
identities are members, and the set has exactly one element when they are
equal and exactly two otherwise. -/
theorem C10_excluded_set_semantics (baseline_id bootstrap_id : Pubkey) :
    baseline_id ∈ excluded_set baseline_id bootstrap_id ∧
    bootstrap_id ∈ excluded_set baseline_id bootstrap_id ∧
    (baseline_id = bootstrap_id → (excluded_set baseline_id bootstrap_id).card = 1) ∧
    (baseline_id ≠ bootstrap_id → (excluded_set baseline_id bootstrap_id).card = 2) := by
  refine ⟨?_, ?_, ?_, ?_⟩
  · simp [excluded_set]
  · simp [excluded_set]
  · intro h
    subst h
    simp [excluded_set]
  · intro h
    rw [excluded_set, Finset.card_insert_of_not_mem (by simp [Ne.symm h]),
      Finset.card_insert_of_not_mem (by simp), Finset.card_empty]

/-- Witness for C10 at concrete inputs: both membership facts, the singleton
case for equal identities, and the two-element case for distinct ones. -/
theorem C10_excluded_set_semantics_witness :
    (3 : Pubkey) ∈ excluded_set 3 4 ∧ (4 : Pubkey) ∈ excluded_set 3 4 ∧
    (excluded_set 3 3).card = 1 ∧ (excluded_set 3 4).card = 2 :=
  ⟨(C10_excluded_set_semantics 3 4).1, (C10_excluded_set_semantics 3 4).2.1,
   (C10_excluded_set_semantics 3 3).2.2.1 rfl,
   (C10_excluded_set_semantics 3 4).2.2.2 (by decide)⟩

theorem on_entry_single_step (entry_index current_slot : Nat) (id : Pubkey) (s : Slot)
    (voter_record : confirmation_latency.VoterRecord)
    (slot_voter_segments : confirmation_latency.SlotVoterSegments) :
    confirmation_latency.on_entry entry_index current_slot [(id, some s)]
        voter_record slot_voter_segments =
      if confirmation_latency.last_confirmed voter_record id = some s then
        (voter_record, slot_voter_segments)
      else (voter_record ++ [⟨id, s, entry_index⟩],
        slot_voter_segments ++ [(s, id, entry_index)]) :=
  rfl

theorem last_confirmed_append_self (voter_record : confirmation_latency.VoterRecord)
    (id : Pubkey) (s : Slot) (entry_index : Nat) :
    confirmation_latency.last_confirmed (voter_record ++ [⟨id, s, entry_index⟩]) id =
      some s := by
  unfold confirmation_latency.last_confirmed confirmation_latency.entries_for
  rw [List.filter_append]
  simp

/-- Claim C2: invoking `on_entry` twice in consecutive callback invocations
with the same confirmed slot for the same identity appends exactly one
`VoteRecordEntry` to the voter record and exactly one entry to the slot voter
segments, not two; the per-identity last-confirmed slot is the
de-duplication key. -/
theorem C2_on_entry_dedup (i₁ i₂ cs₁ cs₂ : Nat) (id : Pubkey) (s : Slot)
    (voter_record : confirmation_latency.VoterRecord)
    (slot_voter_segments : confirmation_latency.SlotVoterSegments)
    (h : confirmation_latency.last_confirmed voter_record id ≠ some s) :
    (confirmation_latency.on_entry i₂ cs₂ [(id, some s)]
        (confirmation_latency.on_entry i₁ cs₁ [(id, some s)] voter_record
          slot_voter_segments).1
        (confirmation_latency.on_entry i₁ cs₁ [(id, some s)] voter_record
          slot_voter_segments).2) =
      (voter_record ++ [⟨id, s, i₁⟩], slot_voter_segments ++ [(s, id, i₁)]) ∧
    (confirmation_latency.entries_for
        (confirmation_latency.on_entry i₂ cs₂ [(id, some s)]
          (confirmation_latency.on_entry i₁ cs₁ [(id, some s)] voter_record
            slot_voter_segments).1
          (confirmation_latency.on_entry i₁ cs₁ [(id, some s)] voter_record
            slot_voter_segments).2).1 id).length =
      (confirmation_latency.entries_for voter_record id).length + 1 ∧
    ((confirmation_latency.on_entry i₂ cs₂ [(id, some s)]
        (confirmation_latency.on_entry i₁ cs₁ [(id, some s)] voter_record
          slot_voter_segments).1
        (confirmation_latency.on_entry i₁ cs₁ [(id, some s)] voter_record
          slot_voter_segments).2).2.filter (fun e => decide (e.1 = s))).length =
      (slot_voter_segments.filter (fun e => decide (e.1 = s))).length + 1 := by
  have h1 : confirmation_latency.on_entry i₁ cs₁ [(id, some s)] voter_record
      slot_voter_segments =
      (voter_record ++ [⟨id, s, i₁⟩], slot_voter_segments ++ [(s, id, i₁)]) := by
    rw [on_entry_single_step, if_neg h]
  have h2 : confirmation_latency.on_entry i₂ cs₂ [(id, some s)]
      (voter_record ++ [⟨id, s, i₁⟩]) (slot_voter_segments ++ [(s, id, i₁)]) =
      (voter_record ++ [⟨id, s, i₁⟩], slot_voter_segments ++ [(s, id, i₁)]) := by
    rw [on_entry_single_step, if_pos (last_confirmed_append_self _ _ _ _)]
  rw [h1]
  rw [h2]
  refine ⟨rfl, ?_, ?_⟩
  · unfold confirmation_latency.entries_for
    rw [List.filter_append]
    simp
  · rw [List.filter_append]
    simp

/-- Witness for C2 at a concrete input: starting from empty containers,
feeding identity 1 confirming slot 10 at entries 4 and 5 records exactly one
observation in each container. -/
theorem C2_on_entry_dedup_witness :
    confirmation_latency.last_confirmed [] 1 ≠ some 10 ∧
    (confirmation_latency.on_entry 5 11 [(1, some 10)]
        (confirmation_latency.on_entry 4 10 [(1, some 10)] [] []).1
        (confirmation_latency.on_entry 4 10 [(1, some 10)] [] []).2) =
      ([⟨1, 10, 4⟩], [(10, 1, 4)]) :=
  ⟨by decide,
   (C2_on_entry_dedup 4 5 10 11 1 10 [] [] (by decide)).1⟩

/-- Claim C3: the rewards calculator assigns every non-excluded identity of
the snapshot the signed net `final_balance - starting_balance` (negative
allowed), orders the report by net descending, treats an identity absent from
the snapshot as having net 0 instead of failing, and in the round-trip
scenario with starting balance `S`, identity `A` ending at `S + 500` and
identity `B` ending at `S - 100`, ranks `A` above `B` with nets `500` and
`-100`. -/
theorem C3_rewards_correct :
    (∀ (snapshot : AccountSnapshot) (excluded : Finset Pubkey) (S : Nat) (id : Pubkey),
      id ∈ snapshot.vote_account_ids → id ∉ excluded →
      (id, rewards_earned.net snapshot.balances S id) ∈
        rewards_earned.compute_winners snapshot excluded S) ∧
    (∀ (snapshot : AccountSnapshot) (excluded : Finset Pubkey) (S : Nat),
      (rewards_earned.compute_winners snapshot excluded S).Pairwise
        (fun a b => b.2 ≤ a.2)) ∧
    (∀ (balances : List (Pubkey × Nat)) (S : Nat) (id : Pubkey),
      balances.lookup id = none → rewards_earned.net balances S id = 0) ∧
    (∀ (S : Nat) (A B : Pubkey), 100 ≤ S → A ≠ B →
      rewards_earned.compute_winners ⟨[A, B], [(A, S + 500), (B, S - 100)]⟩ ∅ S =
        [(A, 500), (B, -100)]) := by
  refine ⟨?_, ?_, ?_, ?_⟩
  · intro snapshot excluded S id hmem hexcl
    refine (rank_desc_perm _).mem_iff.mpr (List.mem_map.mpr ⟨id, ?_, rfl⟩)
    exact List.mem_filter.mpr ⟨hmem, decide_eq_true hexcl⟩
  · intro snapshot excluded S
    refine (sorted_rank_desc _).imp ?_
    intro a b hab
    rcases hab with hab | ⟨hab, _⟩
    · exact le_of_lt hab
    · exact le_of_eq hab.symm
  · intro balances S id h
    simp [rewards_earned.net, rewards_earned.final_balance, h]
  · intro S A B hS hAB
    have hba : (B == A) = false := by
      simp [Ne.symm hAB]
    have hA : rewards_earned.net [(A, S + 500), (B, S - 100)] S A = 500 := by
      simp [rewards_earned.net, rewards_earned.final_balance, List.lookup]
    have hB : rewards_earned.net [(A, S + 500), (B, S - 100)] S B = -100 := by
      simp [rewards_earned.net, rewards_earned.final_balance, List.lookup, hba]
      omega
    show rank_desc _ = _
    have hfil : (([A, B] : List Pubkey).filter
        (fun id => decide (id ∉ (∅ : Finset Pubkey)))) = [A, B] := by
      simp
    rw [show (⟨[A, B], [(A, S + 500), (B, S - 100)]⟩ :
        AccountSnapshot).vote_account_ids = [A, B] from rfl, hfil]
    rw [List.map_cons, List.map_cons, List.map_nil, hA, hB]
    simp only [rank_desc, List.insertionSort, List.orderedInsert_nil]
    rw [List.orderedInsert_of_le]
    exact Or.inl (by norm_num)

/-- Witness for C3 at concrete inputs: identity 1 with final balance 1500 and
starting balance 1000 appears with net 500; an identity absent from the
balances has net 0; the round-trip scenario at `S = 1000` yields the report
`[(1, 500), (2, -100)]`. -/
theorem C3_rewards_correct_witness :
    ((1 : Pubkey), (500 : Int)) ∈
      rewards_earned.compute_winners ⟨[1], [(1, 1500)]⟩ ∅ 1000 ∧
    rewards_earned.net [(2, 700)] 1000 1 = 0 ∧
    rewards_earned.compute_winners ⟨[1, 2], [(1, 1500), (2, 900)]⟩ ∅ 1000 =
      [(1, 500), (2, -100)] := by
  refine ⟨?_, ?_, ?_⟩
  · have h := C3_rewards_correct.1 ⟨[1], [(1, 1500)]⟩ ∅ 1000 1 (by decide) (by decide)
    simpa using h
  · exact C3_rewards_correct.2.2.1 [(2, 700)] 1000 1 (by decide)
  · have h := C3_rewards_correct.2.2.2 1000 1 2 (by decide) (by decide)
    simpa using h

theorem rewards_winners_perm (pool₁ pool₂ : List Pubkey) (balances : List (Pubkey × Nat))
    (excluded : Finset Pubkey) (starting_balance : Nat) (h : List.Perm pool₁ pool₂) :
    rewards_earned.compute_winners ⟨pool₁, balances⟩ excluded starting_balance =
      rewards_earned.compute_winners ⟨pool₂, balances⟩ excluded starting_balance :=
  rank_desc_eq_of_perm ((h.filter _).map _)

theorem availability_winners_perm (pool₁ pool₂ : List Pubkey)
    (balances : List (Pubkey × Nat)) (produced : List Slot) (baseline_id : Pubkey)
    (excluded : Finset Pubkey) (schedule : List (Slot × Pubkey))
    (h : List.Perm pool₁ pool₂) :
    availability.compute_winners ⟨pool₁, balances⟩ produced baseline_id excluded schedule =
      availability.compute_winners ⟨pool₂, balances⟩ produced baseline_id excluded
        schedule :=
  rank_desc_eq_of_perm ((h.filter _).filterMap _)

theorem offsets_from_baseline_perm {vr₁ vr₂ : confirmation_latency.VoterRecord}
    (slot_voter_segments : confirmation_latency.SlotVoterSegments)
    (baseline_id id : Pubkey) (h : List.Perm vr₁ vr₂) :
    List.Perm
      (confirmation_latency.offsets_from_baseline vr₁ slot_voter_segments baseline_id id)
      (confirmation_latency.offsets_from_baseline vr₂ slot_voter_segments baseline_id
        id) :=
  (h.filter _).filterMap _

theorem latency_winners_perm {vr₁ vr₂ : confirmation_latency.VoterRecord}
    (slot_voter_segments : confirmation_latency.SlotVoterSegments)
    (baseline_id : Pubkey) (excluded : Finset Pubkey) (h : List.Perm vr₁ vr₂) :
    confirmation_latency.compute_winners baseline_id excluded vr₁ slot_voter_segments =
      confirmation_latency.compute_winners baseline_id excluded vr₂
        slot_voter_segments := by
  have hscore : ∀ id : Pubkey,
      (let offs := confirmation_latency.offsets_from_baseline vr₁ slot_voter_segments
        baseline_id id
      if offs = [] then none
      else some (id, confirmation_latency.mean_offset offs)) =
      (let offs := confirmation_latency.offsets_from_baseline vr₂ slot_voter_segments
        baseline_id id
      if offs = [] then none
      else some (id, confirmation_latency.mean_offset offs)) := by
    intro id
    have hoff := offsets_from_baseline_perm slot_voter_segments baseline_id id h
    by_cases h0 : confirmation_latency.offsets_from_baseline vr₂ slot_voter_segments
        baseline_id id = []
    · have h1 := (h0 ▸ hoff).eq_nil
      simp only [h0, h1, if_pos]
    · have h1 : confirmation_latency.offsets_from_baseline vr₁ slot_voter_segments
          baseline_id id ≠ [] := fun he => h0 (he ▸ hoff).symm.eq_nil
      simp only [if_neg h0, if_neg h1]
      have hsum : (confirmation_latency.offsets_from_baseline vr₁ slot_voter_segments
          baseline_id id).sum = (confirmation_latency.offsets_from_baseline vr₂
          slot_voter_segments baseline_id id).sum := hoff.sum_eq
      have hlen : (confirmation_latency.offsets_from_baseline vr₁ slot_voter_segments
          baseline_id id).length = (confirmation_latency.offsets_from_baseline vr₂
          slot_voter_segments baseline_id id).length := hoff.length_eq
      rw [confirmation_latency.mean_offset, confirmation_latency.mean_offset, hsum, hlen]
  have hcand : List.Perm
      (((vr₁.map (fun e => e.identity)).dedup).filter (fun id => decide (id ∉ excluded)))
      (((vr₂.map (fun e => e.identity)).dedup).filter
        (fun id => decide (id ∉ excluded))) :=
    ((h.map _).dedup).filter _
  have hfm :
      (((vr₁.map (fun e => e.identity)).dedup).filter
          (fun id => decide (id ∉ excluded))).filterMap
        (fun id =>
          let offs := confirmation_latency.offsets_from_baseline vr₁ slot_voter_segments
            baseline_id id
          if offs = [] then none
          else some (id, confirmation_latency.mean_offset offs)) =
      (((vr₁.map (fun e => e.identity)).dedup).filter
          (fun id => decide (id ∉ excluded))).filterMap
        (fun id =>
          let offs := confirmation_latency.offsets_from_baseline vr₂ slot_voter_segments
            baseline_id id
          if offs = [] then none
          else some (id, confirmation_latency.mean_offset offs)) :=
    List.filterMap_congr (fun a _ => hscore a)
  unfold confirmation_latency.compute_winners
  rw [hfm]
  exact rank_asc_eq_of_perm (hcand.filterMap _)

/-- Claim C4: in every report produced by any of the three calculators, any
two included identities with equal metric value are ordered by ascending
identity byte value, never by insertion or first-seen order: each report is
pairwise tie-broken by identity, and permuting the order in which the input
identities are presented leaves each report unchanged. -/
theorem C4_tie_break_total :
    (∀ (snapshot : AccountSnapshot) (excluded : Finset Pubkey) (S : Nat),
      (rewards_earned.compute_winners snapshot excluded S).Pairwise
        (fun a b => a.2 = b.2 → a.1 ≤ b.1)) ∧
    (∀ (snapshot : AccountSnapshot) (produced : List Slot) (baseline_id : Pubkey)
      (excluded : Finset Pubkey) (schedule : List (Slot × Pubkey)),
      (availability.compute_winners snapshot produced baseline_id excluded
        schedule).Pairwise (fun a b => a.2 = b.2 → a.1 ≤ b.1)) ∧
    (∀ (baseline_id : Pubkey) (excluded : Finset Pubkey)
      (voter_record : confirmation_latency.VoterRecord)
      (slot_voter_segments : confirmation_latency.SlotVoterSegments),
      (confirmation_latency.compute_winners baseline_id excluded voter_record
        slot_voter_segments).Pairwise (fun a b => a.2 = b.2 → a.1 ≤ b.1)) ∧
    (∀ (pool₁ pool₂ : List Pubkey) (balances : List (Pubkey × Nat))
      (excluded : Finset Pubkey) (S : Nat), List.Perm pool₁ pool₂ →
      rewards_earned.compute_winners ⟨pool₁, balances⟩ excluded S =
        rewards_earned.compute_winners ⟨pool₂, balances⟩ excluded S) ∧
    (∀ (pool₁ pool₂ : List Pubkey) (balances : List (Pubkey × Nat))
      (produced : List Slot) (baseline_id : Pubkey) (excluded : Finset Pubkey)
      (schedule : List (Slot × Pubkey)), List.Perm pool₁ pool₂ →
      availability.compute_winners ⟨pool₁, balances⟩ produced baseline_id excluded
        schedule =
        availability.compute_winners ⟨pool₂, balances⟩ produced baseline_id excluded
          schedule) ∧
    (∀ (vr₁ vr₂ : confirmation_latency.VoterRecord)
      (slot_voter_segments : confirmation_latency.SlotVoterSegments)
      (baseline_id : Pubkey) (excluded : Finset Pubkey), List.Perm vr₁ vr₂ →
      confirmation_latency.compute_winners baseline_id excluded vr₁
        slot_voter_segments =
        confirmation_latency.compute_winners baseline_id excluded vr₂
          slot_voter_segments) := by
  refine ⟨?_, ?_, ?_, ?_, ?_, ?_⟩
  · intro snapshot excluded S
    refine (sorted_rank_desc _).imp ?_
    intro a b hab heq
    rcases hab with hab | ⟨_, hle⟩
    · exact absurd hab (heq ▸ lt_irrefl _)
    · exact hle
  · intro snapshot produced baseline_id excluded schedule
    refine (sorted_rank_desc _).imp ?_
    intro a b hab heq
    rcases hab with hab | ⟨_, hle⟩
    · exact absurd hab (heq ▸ lt_irrefl _)
    · exact hle
  · intro baseline_id excluded voter_record slot_voter_segments
    refine (sorted_rank_asc _).imp ?_
    intro a b hab heq
    rcases hab with hab | ⟨_, hle⟩
    · exact absurd hab (heq ▸ lt_irrefl _)
    · exact hle
  · intro pool₁ pool₂ balances excluded S h
    exact rewards_winners_perm pool₁ pool₂ balances excluded S h
  · intro pool₁ pool₂ balances produced baseline_id excluded schedule h
    exact availability_winners_perm pool₁ pool₂ balances produced baseline_id excluded
      schedule h
  · intro vr₁ vr₂ slot_voter_segments baseline_id excluded h
    exact latency_winners_perm slot_voter_segments baseline_id excluded h

/-- Witness for C4 at a concrete input: two identities presented in either
order with equal net earnings are reported in ascending identity order. -/
theorem C4_tie_break_total_witness :
    List.Perm [9, 4] [4, 9] ∧
    rewards_earned.compute_winners ⟨[9, 4], [(9, 1200), (4, 1200)]⟩ ∅ 1000 =
      rewards_earned.compute_winners ⟨[4, 9], [(9, 1200), (4, 1200)]⟩ ∅ 1000 :=
  ⟨List.Perm.swap 4 9 [],
   C4_tie_break_total.2.2.2.1 [9, 4] [4, 9] [(9, 1200), (4, 1200)] ∅ 1000
     (List.Perm.swap 4 9 [])⟩

/-- Claim C5: the latency report is ordered ascending by each identity's
aggregate entry-index offset from the baseline validator (lower aggregate
offset ranks higher), and in the scenario where baseline `X` confirms slot 10
at entry index 50, identity `Y` confirms it at entry index 52 and identity
`Z` at entry index 51, the report ranks `Z` (offset 1) above `Y`
(offset 2). -/
theorem C5_latency_ascending :
    (∀ (baseline_id : Pubkey) (excluded : Finset Pubkey)
      (voter_record : confirmation_latency.VoterRecord)
      (slot_voter_segments : confirmation_latency.SlotVoterSegments),
      (confirmation_latency.compute_winners baseline_id excluded voter_record
        slot_voter_segments).Pairwise (fun a b => a.2 ≤ b.2)) ∧
    confirmation_latency.compute_winners 0 (excluded_set 0 0)
        [⟨0, 10, 50⟩, ⟨2, 10, 52⟩, ⟨1, 10, 51⟩]
        [(10, 0, 50), (10, 2, 52), (10, 1, 51)] =
      [(1, 1), (2, 2)] := by
  constructor
  · intro baseline_id excluded voter_record slot_voter_segments
    refine (sorted_rank_asc _).imp ?_
    intro a b hab
    rcases hab with hab | ⟨hab, _⟩
    · exact le_of_lt hab
    · exact le_of_eq hab
  · have h2 : confirmation_latency.offsets_from_baseline
        [⟨0, 10, 50⟩, ⟨2, 10, 52⟩, ⟨1, 10, 51⟩]
        [(10, 0, 50), (10, 2, 52), (10, 1, 51)] 0 2 = [2] := by decide
    have h1 : confirmation_latency.offsets_from_baseline
        [⟨0, 10, 50⟩, ⟨2, 10, 52⟩, ⟨1, 10, 51⟩]
        [(10, 0, 50), (10, 2, 52), (10, 1, 51)] 0 1 = [1] := by decide
    have hm2 : confirmation_latency.mean_offset [2] = 2 := by
      simp [confirmation_latency.mean_offset]
    have hm1 : confirmation_latency.mean_offset [1] = 1 := by
      simp [confirmation_latency.mean_offset]
    unfold confirmation_latency.compute_winners
    rw [show ((([⟨0, 10, 50⟩, ⟨2, 10, 52⟩, ⟨1, 10, 51⟩] :
        confirmation_latency.VoterRecord).map (fun e => e.identity)).dedup).filter
        (fun id => decide (id ∉ excluded_set 0 0)) = [2, 1] from by decide]
    simp only [List.filterMap_cons, List.filterMap_nil, h2, h1, hm2, hm1]
    norm_num
    simp only [rank_asc, List.insertionSort, List.orderedInsert]
    rw [if_neg]
    norm_num [beats_asc]

/-- Claim C6: an identity that never confirms any slot the baseline validator
also confirmed (its offset list is empty) is omitted from the latency report;
the calculation is total, so no error is raised. -/
theorem C6_latency_omits_unscored (baseline_id : Pubkey) (excluded : Finset Pubkey)
    (voter_record : confirmation_latency.VoterRecord)
    (slot_voter_segments : confirmation_latency.SlotVoterSegments) (id : Pubkey)
    (h : confirmation_latency.offsets_from_baseline voter_record slot_voter_segments
      baseline_id id = []) :
    id ∉ (confirmation_latency.compute_winners baseline_id excluded voter_record
      slot_voter_segments).map Prod.fst := by
  intro hmem
  rcases List.mem_map.mp hmem with ⟨x, hx, hx1⟩
  refine (mem_latency_report hx).2.2 ?_
  rw [hx1]
  exact h

/-- Witness for C6 at a concrete input: identity 7 confirms only slot 99,
which the baseline (identity 0) never confirmed, so identity 7 is absent from
the latency report. -/
theorem C6_latency_omits_unscored_witness :
    confirmation_latency.offsets_from_baseline [⟨0, 10, 50⟩, ⟨7, 99, 60⟩]
        [(10, 0, 50), (99, 7, 60)] 0 7 = [] ∧
    (7 : Pubkey) ∉ (confirmation_latency.compute_winners 0 (excluded_set 0 0)
        [⟨0, 10, 50⟩, ⟨7, 99, 60⟩] [(10, 0, 50), (99, 7, 60)]).map Prod.fst :=
  ⟨by decide,
   C6_latency_omits_unscored 0 (excluded_set 0 0) [⟨0, 10, 50⟩, ⟨7, 99, 60⟩]
     [(10, 0, 50), (99, 7, 60)] 7 (by decide)⟩

/-- Claim C7: an identity assigned zero slots by the leader-assignment
schedule is omitted from the availability report regardless of its snapshot
state; the calculation is total, so no error is raised. -/
theorem C7_availability_omits_zero_assigned (snapshot : AccountSnapshot)
    (produced : List Slot) (baseline_id : Pubkey) (excluded : Finset Pubkey)
    (schedule : List (Slot × Pubkey)) (id : Pubkey)
    (h : availability.assigned_slots schedule id = []) :
    id ∉ (availability.compute_winners snapshot produced baseline_id excluded
      schedule).map Prod.fst := by
  intro hmem
  rcases List.mem_map.mp hmem with ⟨x, hx, hx1⟩
  refine (mem_availability_report hx).2.2 ?_
  rw [hx1]
  exact h

/-- Witness for C7 at a concrete input: identity 3 is in the snapshot but the
schedule assigns it no slot, so it is absent from the availability report. -/
theorem C7_availability_omits_zero_assigned_witness :
    availability.assigned_slots [(1, 9), (2, 9)] 3 = [] ∧
    (3 : Pubkey) ∉ (availability.compute_winners ⟨[3, 9], [(3, 800), (9, 1300)]⟩
        [1, 2] 0 (excluded_set 0 0) [(1, 9), (2, 9)]).map Prod.fst :=
  ⟨by decide,
   C7_availability_omits_zero_assigned ⟨[3, 9], [(3, 800), (9, 1300)]⟩ [1, 2] 0
     (excluded_set 0 0) [(1, 9), (2, 9)] 3 (by decide)⟩

/-- Claim C8: running the three winner calculators over a post-replay state
leaves the voter record and the slot voter segments unchanged: the read phase
hands both containers back exactly as it received them. -/
theorem C8_read_phase_no_mutation (snapshot : AccountSnapshot) (produced : List Slot)
    (schedule : List (Slot × Pubkey)) (baseline_id : Pubkey) (excluded : Finset Pubkey)
    (starting_balance : Nat) (voter_record : confirmation_latency.VoterRecord)
    (slot_voter_segments : confirmation_latency.SlotVoterSegments) :
    (run_read_phase snapshot produced schedule baseline_id excluded starting_balance
      voter_record slot_voter_segments).2 = (voter_record, slot_voter_segments) :=
  rfl

/-- Claim C9: for fixed inputs the three calculators are deterministic:
rerunning the read phase yields the identical triple of reports, and the
reports do not depend on the unordered presentation of the inputs — permuting
the snapshot's candidate pool or the voter record's enumeration leaves every
report byte-identical. -/
theorem C9_deterministic :
    (∀ (snapshot : AccountSnapshot) (produced : List Slot)
      (schedule : List (Slot × Pubkey)) (baseline_id : Pubkey)
      (excluded : Finset Pubkey) (starting_balance : Nat)
      (voter_record : confirmation_latency.VoterRecord)
      (slot_voter_segments : confirmation_latency.SlotVoterSegments),
      (run_read_phase snapshot produced schedule baseline_id excluded starting_balance
        voter_record slot_voter_segments).1 =
      (run_read_phase snapshot produced schedule baseline_id excluded starting_balance
        voter_record slot_voter_segments).1) ∧
    (∀ (pool₁ pool₂ : List Pubkey) (balances : List (Pubkey × Nat))
      (produced : List Slot) (schedule : List (Slot × Pubkey)) (baseline_id : Pubkey)
      (excluded : Finset Pubkey) (starting_balance : Nat)
      (voter_record : confirmation_latency.VoterRecord)
      (slot_voter_segments : confirmation_latency.SlotVoterSegments),
      List.Perm pool₁ pool₂ →
      (run_read_phase ⟨pool₁, balances⟩ produced schedule baseline_id excluded
        starting_balance voter_record slot_voter_segments).1 =
      (run_read_phase ⟨pool₂, balances⟩ produced schedule baseline_id excluded
        starting_balance voter_record slot_voter_segments).1) ∧
    (∀ (snapshot : AccountSnapshot) (produced : List Slot)
      (schedule : List (Slot × Pubkey)) (baseline_id : Pubkey)
      (excluded : Finset Pubkey) (starting_balance : Nat)
      (vr₁ vr₂ : confirmation_latency.VoterRecord)
      (slot_voter_segments : confirmation_latency.SlotVoterSegments),
      List.Perm vr₁ vr₂ →
      confirmation_latency.compute_winners baseline_id excluded vr₁
        slot_voter_segments =
      confirmation_latency.compute_winners baseline_id excluded vr₂
        slot_voter_segments) := by
  refine ⟨fun _ _ _ _ _ _ _ _ => rfl, ?_, ?_⟩
  · intro pool₁ pool₂ balances produced schedule baseline_id excluded starting_balance
      voter_record slot_voter_segments h
    unfold run_read_phase
    rw [rewards_winners_perm pool₁ pool₂ balances excluded starting_balance h,
      availability_winners_perm pool₁ pool₂ balances produced baseline_id excluded
        schedule h]
  · intro snapshot produced schedule baseline_id excluded starting_balance vr₁ vr₂
      slot_voter_segments h
    exact latency_winners_perm slot_voter_segments baseline_id excluded h

/-- Witness for C9 at a concrete input: presenting the candidate pool in
either order yields the same triple of reports, and permuting the voter
record leaves the latency report unchanged. -/
theorem C9_deterministic_witness :
    List.Perm [4, 9] [9, 4] ∧
    (run_read_phase ⟨[4, 9], [(4, 1100), (9, 1300)]⟩ [1] [(1, 4)] 0 (excluded_set 0 0)
        1000 [⟨0, 1, 2⟩, ⟨4, 1, 3⟩] [(1, 0, 2), (1, 4, 3)]).1 =
      (run_read_phase ⟨[9, 4], [(4, 1100), (9, 1300)]⟩ [1] [(1, 4)] 0 (excluded_set 0 0)
        1000 [⟨0, 1, 2⟩, ⟨4, 1, 3⟩] [(1, 0, 2), (1, 4, 3)]).1 :=
  ⟨List.Perm.swap 9 4 [],
   C9_deterministic.2.1 [4, 9] [9, 4] [(4, 1100), (9, 1300)] [1] [(1, 4)] 0
     (excluded_set 0 0) 1000 [⟨0, 1, 2⟩, ⟨4, 1, 3⟩] [(1, 0, 2), (1, 4, 3)]
     (List.Perm.swap 9 4 [])⟩

end WinnerTool
